import Mathlib

/-!
# WealthFlow backend — verification of the specification against the source

Shallow embedding of the WealthFlow Go backend (domain model, allocation
engine, posting services, net-worth aggregation, transfer-task generator)
together with proofs of the spec's claims about them.

Modelling conventions:
* `decimal.Decimal` (shopspring, exact base-10 arithmetic on `Add`/`Sub`/`Mul`)
  is modelled as `ℚ`.  The only division on the money path is `Div` by 100 in
  the allocator; shopspring's `Div` rounds to 16 fractional digits, which is
  exact for every value arising in the claims, so `ℚ` division is faithful here.
* `uuid.UUID` is modelled as `Nat`.
* Go maps are modelled as association lists built in insertion order; every
  quantity read off a map below (sums of values, emptiness of the positive /
  negative parts) is invariant under the iteration order Go leaves unspecified.
* Go's `sort.Slice` (not guaranteed stable) is modelled by an insertion sort by
  ascending `Priority`; the claims proved below do not depend on the order of
  items with equal priority.
-/

/-- Equality of `Except` results is decidable when both components are. -/
instance exceptDecEq {ε α : Type} [DecidableEq ε] [DecidableEq α] :
    DecidableEq (Except ε α) := fun x y =>
  match x, y with
  | .ok a, .ok b =>
    if h : a = b then isTrue (by rw [h]) else isFalse (fun hh => h (Except.ok.inj hh))
  | .error a, .error b =>
    if h : a = b then isTrue (by rw [h]) else isFalse (fun hh => h (Except.error.inj hh))
  | .ok _, .error _ => isFalse (fun hh => Except.noConfusion hh)
  | .error _, .ok _ => isFalse (fun hh => Except.noConfusion hh)

namespace WealthFlow

/-- Money values (`decimal.Decimal`). -/
abbrev Money := ℚ

/-- Bucket / transaction identifiers (`uuid.UUID`). -/
abbrev Uid := Nat

/-! ## Association-list model of `map[uuid.UUID]decimal.Decimal` -/

/-- A Go `map[uuid.UUID]decimal.Decimal`, in insertion order. -/
abbrev AllocMap := List (Uid × Money)

/-- Go map assignment `m[k] = v`: overwrite if present, append otherwise. -/
def setEntry (m : AllocMap) (k : Uid) (v : Money) : AllocMap :=
  if m.any (fun p => decide (p.1 = k)) then
    m.map (fun p => if p.1 = k then (k, v) else p)
  else m ++ [(k, v)]

/-- Go map lookup `m[k]`. -/
def getEntry (m : AllocMap) (k : Uid) : Option Money :=
  (m.find? (fun p => decide (p.1 = k))).map Prod.snd

/-- Sum of the values of a Go map (order-independent over `ℚ`). -/
def sumValues (m : AllocMap) : Money := (m.map Prod.snd).sum

/-- The key set of the map. -/
def keysOf (m : AllocMap) : List Uid := m.map Prod.fst

/-! ## Domain: split rules (`internal/domain/split_rule.go`) -/

/-- `SplitRuleItemType`: `FIXED`, `PERCENT` or `REMAINDER`. -/
inductive SplitRuleItemType where
  | fixed
  | percent
  | remainder
deriving DecidableEq, Repr

/-- `domain.SplitRuleItem` (ids dropped; they play no role in the allocator). -/
structure SplitRuleItem where
  targetBucketID : Uid
  itemType : SplitRuleItemType
  value : Money
  priority : Int
deriving DecidableEq, Repr

/-! ## Allocation engine (`usecase/allocator`, `CalculateAllocation`) -/

/-- The distinct error exits of `CalculateAllocation`. -/
inductive AllocError where
  /-- "total amount must be positive" -/
  | nonPositiveTotal
  /-- "items list cannot be empty" -/
  | emptyItems
  /-- "FIXED amount exceeds remaining balance" (ALLOCATION_OVERFLOW) -/
  | fixedOverflow
  /-- "no REMAINDER item found" -/
  | noRemainder
  /-- "total allocation does not equal total amount" (ALLOCATION_IMBALANCE) -/
  | imbalance
deriving DecidableEq, Repr

/-- `sort.Slice(sortedItems, ...)` comparing `Priority` (lower first),
realised as an insertion sort. -/
def insertByPriority (x : SplitRuleItem) : List SplitRuleItem → List SplitRuleItem
  | [] => [x]
  | y :: ys =>
    if x.priority < y.priority then x :: y :: ys else y :: insertByPriority x ys

/-- Sort a copy of the items by ascending priority. -/
def sortByPriority (l : List SplitRuleItem) : List SplitRuleItem :=
  l.foldr insertByPriority []

/-- State threaded through the FIXED pass: the allocation map and `remaining`. -/
structure FixedState where
  alloc : AllocMap
  remaining : Money
deriving DecidableEq, Repr

/-- One iteration of the FIXED loop of `CalculateAllocation`: a FIXED item is
checked against `remaining` (`item.Value.GreaterThan(remaining)` fails with the
overflow error), assigned to its target and subtracted; other items are
skipped. -/
def fixedStep (st : Except AllocError FixedState) (item : SplitRuleItem) :
    Except AllocError FixedState :=
  match st with
  | .error e => .error e
  | .ok s =>
    if item.itemType = .fixed then
      if s.remaining < item.value then .error .fixedOverflow
      else .ok ⟨setEntry s.alloc item.targetBucketID item.value,
                s.remaining - item.value⟩
    else .ok s

/-- One iteration of the PERCENT loop: a PERCENT item is assigned
`remaining × value ÷ 100` (`remaining` is the snapshot after the FIXED pass
and is not modified here); other items are skipped. -/
def percentStep (remaining : Money) (alloc : AllocMap) (item : SplitRuleItem) :
    AllocMap :=
  if item.itemType = .percent then
    setEntry alloc item.targetBucketID (remaining * item.value / 100)
  else alloc

/-- `findRemainderItem`: first item of type REMAINDER. -/
def findRemainderItem (items : List SplitRuleItem) : Option SplitRuleItem :=
  items.find? (fun i => decide (i.itemType = .remainder))

/-- `allocator.CalculateAllocation` (unnamed allocator file, lines 21–91):
guard the total and the item list, sort by priority, run the FIXED pass, the
PERCENT pass against the post-FIXED `remaining`, give the first REMAINDER item
`total − (sum assigned so far)`, and finally check that the map sums to the
total.  (The Go code also accumulates a `percentTotal` that is never read; it
is omitted.) -/
def CalculateAllocation (totalAmount : Money) (items : List SplitRuleItem) :
    Except AllocError AllocMap :=
  if totalAmount ≤ 0 then .error .nonPositiveTotal
  else if items.isEmpty then .error .emptyItems
  else
    let sortedItems := sortByPriority items
    match sortedItems.foldl fixedStep (.ok ⟨[], totalAmount⟩) with
    | .error e => .error e
    | .ok s =>
      let alloc2 := sortedItems.foldl (percentStep s.remaining) s.alloc
      match findRemainderItem sortedItems with
      | none => .error .noRemainder
      | some rItem =>
        let remainderAmount := totalAmount - sumValues alloc2
        let alloc3 := setEntry alloc2 rItem.targetBucketID remainderAmount
        if sumValues alloc3 = totalAmount then .ok alloc3
        else .error .imbalance

/-! ### Claim-side allocator (spec §4.1, written from the claim's words) -/

/-- Claim-side FIXED step, for a list already known to consist of FIXED items:
"each fails with ALLOCATION_OVERFLOW if its value exceeds the amount still
remaining, otherwise its value is assigned to its target and subtracted from
remaining". -/
def specFixedStep (st : Except AllocError FixedState) (item : SplitRuleItem) :
    Except AllocError FixedState :=
  match st with
  | .error e => .error e
  | .ok s =>
    if s.remaining < item.value then .error .fixedOverflow
    else .ok ⟨setEntry s.alloc item.targetBucketID item.value,
              s.remaining - item.value⟩

/-- Claim-side PERCENT step: "each PERCENT item is then independently assigned
(total minus the sum of FIXED values) times value divided by 100, all computed
against the same post-FIXED snapshot". -/
def specPercentStep (base : Money) (alloc : AllocMap) (item : SplitRuleItem) :
    AllocMap :=
  setEntry alloc item.targetBucketID (base * item.value / 100)

/-- The allocation algorithm exactly as the claim states it: FIXED items in
ascending priority with the overflow check, each PERCENT item assigned
`(total − Σ FIXED values) × value ÷ 100` against the same post-FIXED snapshot,
and the REMAINDER item receiving `total` minus everything assigned so far. -/
def allocateSpec (totalAmount : Money) (items : List SplitRuleItem) :
    Except AllocError AllocMap :=
  if totalAmount ≤ 0 then .error .nonPositiveTotal
  else if items.isEmpty then .error .emptyItems
  else
    let fixedItems := (sortByPriority items).filter (fun i => decide (i.itemType = .fixed))
    match fixedItems.foldl specFixedStep (.ok ⟨[], totalAmount⟩) with
    | .error e => .error e
    | .ok s =>
      let base := totalAmount - (fixedItems.map (·.value)).sum
      let percentItems :=
        (sortByPriority items).filter (fun i => decide (i.itemType = .percent))
      let alloc2 := percentItems.foldl (specPercentStep base) s.alloc
      match items.find? (fun i => decide (i.itemType = .remainder)) with
      | none => .error .noRemainder
      | some rItem =>
        .ok (setEntry alloc2 rItem.targetBucketID (totalAmount - sumValues alloc2))

/-! ## Domain: buckets (`internal/domain/bucket.go`) -/

/-- `BucketType`: the closed set declared in `bucket.go`. -/
inductive BucketType where
  | physical
  | virtual
  | income
  | expense
  | equity
  | system
deriving DecidableEq, Repr

/-- `domain.Bucket`. -/
structure Bucket where
  id : Uid
  name : String
  bucketType : BucketType
  parentPhysicalBucketID : Option Uid
  currentBalance : Money
deriving DecidableEq, Repr

/-- A bucket repository (`BucketRepo.GetByID`): `none` models the not-found
error. -/
abbrev BucketStore := Uid → Option Bucket

/-! ## Domain: transactions (`internal/domain/transaction.go`)

`EntryType` and `Layer` are Go string types, so invalid values are
representable; they are kept as `String` here because `Transaction.Validate`
explicitly rejects strings outside the declared constants. -/

/-- `domain.TransactionEntry` (the `ID`/`TransactionID` fields are dropped;
they play no role in validation, balances or task generation). -/
structure TransactionEntry where
  bucketID : Uid
  amount : Money
  /-- `Type`: `"DEBIT"` or `"CREDIT"`. -/
  entryType : String
  /-- `Layer`: `"PHYSICAL"` or `"VIRTUAL"`. -/
  layer : String
deriving DecidableEq, Repr

/-- `domain.Transaction` (the `Date` field is dropped; no claim concerns it). -/
structure Transaction where
  id : Uid
  description : String
  isInternalTransfer : Bool
  isExternalInflow : Bool
  entries : List TransactionEntry
deriving DecidableEq, Repr

/-- The per-entry loop of `Transaction.Validate`: split the entries into the
physical and virtual layer (rejecting an invalid layer), and check each
amount and entry type, reporting the first failure in entry order. -/
def partitionEntries : List TransactionEntry →
    Except String (List TransactionEntry × List TransactionEntry)
  | [] => .ok ([], [])
  | e :: rest =>
    if e.layer ≠ "PHYSICAL" ∧ e.layer ≠ "VIRTUAL" then
      .error "entry layer must be PHYSICAL or VIRTUAL"
    else if e.amount ≤ 0 then
      .error "entry amount must be positive (absolute value)"
    else if e.entryType ≠ "DEBIT" ∧ e.entryType ≠ "CREDIT" then
      .error "entry type must be DEBIT or CREDIT"
    else
      match partitionEntries rest with
      | .error msg => .error msg
      | .ok (ph, vi) =>
        if e.layer = "PHYSICAL" then .ok (e :: ph, vi) else .ok (ph, e :: vi)

/-- `validateLayerBalance`: an empty layer is valid; otherwise the DEBIT
amounts must sum to the same value as the remaining (non-DEBIT) amounts,
exactly as the Go loop accumulates them. -/
def validateLayerBalance (entries : List TransactionEntry) (layer : String) :
    Option String :=
  if entries.isEmpty then none
  else
    let totalDebits :=
      ((entries.filter (fun e => decide (e.entryType = "DEBIT"))).map (·.amount)).sum
    let totalCredits :=
      ((entries.filter (fun e => decide (¬ e.entryType = "DEBIT"))).map (·.amount)).sum
    if totalDebits = totalCredits then none
    else some ("sum of debits must equal sum of credits for " ++ layer ++ " layer")

/-- `Transaction.Validate` (`transaction.go` lines 52–117): at least one
entry; per-entry layer / amount / type checks; per-layer balance. `none`
models a `nil` error. -/
def Transaction.Validate (t : Transaction) : Option String :=
  if t.entries.isEmpty then some "transaction must have at least one entry"
  else
    match partitionEntries t.entries with
    | .error msg => some msg
    | .ok (ph, vi) =>
      match validateLayerBalance ph "PHYSICAL" with
      | some msg => some msg
      | none => validateLayerBalance vi "VIRTUAL"

/-! ### Claim-side layer sums (spec §3, written from the claim's words) -/

/-- Claim-side: the sum of DEBIT amounts of the given layer. -/
def layerDebitSum (entries : List TransactionEntry) (layer : String) : Money :=
  ((entries.filter
    (fun e => decide (e.layer = layer ∧ e.entryType = "DEBIT"))).map (·.amount)).sum

/-- Claim-side: the sum of CREDIT amounts of the given layer. -/
def layerCreditSum (entries : List TransactionEntry) (layer : String) : Money :=
  ((entries.filter
    (fun e => decide (e.layer = layer ∧ e.entryType = "CREDIT"))).map (·.amount)).sum

/-- Claim-side: a single entry is well formed (positive amount, valid
direction, valid layer). -/
def WellFormedEntry (e : TransactionEntry) : Prop :=
  0 < e.amount ∧ (e.entryType = "DEBIT" ∨ e.entryType = "CREDIT") ∧
    (e.layer = "PHYSICAL" ∨ e.layer = "VIRTUAL")

instance (e : TransactionEntry) : Decidable (WellFormedEntry e) := by
  unfold WellFormedEntry
  infer_instance

/-! ## Balance-maintenance rule (`update_bucket_balance`, `cmd/server/main.go`
lines 140–163): on inserting an entry, a DEBIT adds the amount to the target
bucket's `current_balance` and a CREDIT subtracts it. -/

/-- Effect of inserting one transaction entry on the bucket balances. -/
def applyEntry (balances : Uid → Money) (e : TransactionEntry) : Uid → Money :=
  fun b =>
    if b = e.bucketID then
      if e.entryType = "DEBIT" then balances b + e.amount
      else if e.entryType = "CREDIT" then balances b - e.amount
      else balances b
    else balances b

/-- Effect of inserting all entries of a transaction, in order. -/
def applyEntries (balances : Uid → Money) (entries : List TransactionEntry) :
    Uid → Money :=
  entries.foldl applyEntry balances

/-! ## Expense service (`usecase/expense/service.go`, `LogExpense`) -/

/-- `expense.LogExpenseInput`. -/
structure LogExpenseInput where
  amount : Money
  description : String
  virtualBucketID : Uid
  categoryBucketID : Uid
  physicalOverrideID : Option Uid
deriving DecidableEq, Repr

/-- `ExpenseService.LogExpense` (lines 45–160): validate the amount, the
virtual bucket, the category bucket; determine the physical source (the
override when provided, which must then be PHYSICAL, otherwise the virtual
bucket's parent); build the four-entry transaction with both flags false;
self-validate.  Persistence (`TransactionRepo.Create`) is modelled by
returning the transaction; a returned error means nothing was persisted. -/
def LogExpense (store : BucketStore) (txID : Uid) (input : LogExpenseInput) :
    Except String Transaction :=
  if input.amount ≤ 0 then .error "expense amount must be positive"
  else
    match store input.virtualBucketID with
    | none => .error "bucket not found"
    | some virtualBucket =>
      if virtualBucket.bucketType ≠ .virtual then
        .error "virtual bucket ID must reference a virtual bucket"
      else
        match store input.categoryBucketID with
        | none => .error "bucket not found"
        | some categoryBucket =>
          if categoryBucket.bucketType ≠ .expense then
            .error "category bucket ID must reference an expense bucket"
          else
            match (match input.physicalOverrideID with
              | some oid =>
                match store oid with
                | none => .error "bucket not found"
                | some overrideBucket =>
                  if overrideBucket.bucketType ≠ .physical then
                    .error "physical override bucket must be a physical bucket"
                  else .ok oid
              | none =>
                match virtualBucket.parentPhysicalBucketID with
                | none => .error "virtual bucket must have a parent physical bucket ID"
                | some pid => .ok pid : Except String Uid) with
            | .error e => .error e
            | .ok sourcePhysicalBucketID =>
              let tx : Transaction :=
                { id := txID
                  description := input.description
                  isInternalTransfer := false
                  isExternalInflow := false
                  entries :=
                    [⟨sourcePhysicalBucketID, input.amount, "CREDIT", "PHYSICAL"⟩,
                     ⟨input.categoryBucketID, input.amount, "DEBIT", "PHYSICAL"⟩,
                     ⟨input.virtualBucketID, input.amount, "CREDIT", "VIRTUAL"⟩,
                     ⟨input.categoryBucketID, input.amount, "DEBIT", "VIRTUAL"⟩] }
              match Transaction.Validate tx with
              | some msg => .error msg
              | none => .ok tx

/-! ## Transfer-task generator (`GenerateTasks`) -/

/-- `domain.TransferTask` (the generated task `ID` is dropped: it is a fresh
uuid and no claim concerns it). -/
structure TransferTask where
  relatedTransactionID : Uid
  completedTransactionID : Option Uid
  fromPhysicalBucketID : Uid
  toPhysicalBucketID : Uid
  amount : Money
  isCompleted : Bool
deriving DecidableEq, Repr

/-- The physical anchor of a bucket as resolved by `GenerateTasks`:
PHYSICAL → itself, VIRTUAL → its parent (error when absent), INCOME /
EXPENSE / SYSTEM (the `default:` arm) → skipped (`none`); a missing bucket is
an error. -/
def anchorOf (store : BucketStore) (bucketID : Uid) : Except String (Option Uid) :=
  match store bucketID with
  | none => .error "bucket not found"
  | some bucket =>
    match bucket.bucketType with
    | .physical => .ok (some bucket.id)
    | .virtual =>
      match bucket.parentPhysicalBucketID with
      | none => .error "virtual bucket must have a parent physical bucket"
      | some pid => .ok (some pid)
    | .income => .ok none
    | .expense => .ok none
    | _ => .ok none

/-- One iteration of the net-flow loop of `GenerateTasks`: resolve the
anchor; a DEBIT adds the amount to the anchor's flow, a CREDIT subtracts it
(a missing key reads as Go's zero value). -/
def flowStep (store : BucketStore) (st : Except String AllocMap)
    (entry : TransactionEntry) : Except String AllocMap :=
  match st with
  | .error e => .error e
  | .ok flows =>
    match anchorOf store entry.bucketID with
    | .error e => .error e
    | .ok none => .ok flows
    | .ok (some pid) =>
      let current := (getEntry flows pid).getD 0
      if entry.entryType = "DEBIT" then
        .ok (setEntry flows pid (current + entry.amount))
      else if entry.entryType = "CREDIT" then
        .ok (setEntry flows pid (current - entry.amount))
      else .ok flows

/-- `physicalBucketFlows`: net flow per physical anchor over the given
entries. -/
def computeFlows (store : BucketStore) (entries : List TransactionEntry) :
    Except String AllocMap :=
  entries.foldl (flowStep store) (.ok [])

/-- The inner loop of `GenerateTasks` for one sending bucket: walk the
receivers, transfer `min(fromAmount, toAmount)` when positive, and break when
the sending amount is exhausted. -/
def innerLoop (txID fromBucketID : Uid) :
    List Uid → Money → AllocMap → List TransferTask → AllocMap × List TransferTask
  | [], _, flows, tasks => (flows, tasks)
  | toBucketID :: rest, fromAmount, flows, tasks =>
    let toAmount := (getEntry flows toBucketID).getD 0
    let transferAmount := min fromAmount toAmount
    if 0 < transferAmount then
      let task : TransferTask :=
        ⟨txID, none, fromBucketID, toBucketID, transferAmount, false⟩
      let flows' := setEntry flows toBucketID (toAmount - transferAmount)
      if fromAmount - transferAmount ≤ 0 then (flows', tasks ++ [task])
      else innerLoop txID fromBucketID rest (fromAmount - transferAmount) flows'
        (tasks ++ [task])
    else innerLoop txID fromBucketID rest fromAmount flows tasks

/-- The outer loop of `GenerateTasks` over the sending buckets; the receiver
list is the snapshot computed before the loops, while the flow map is
mutated as tasks are emitted. -/
def outerLoop (txID : Uid) (receivingBuckets : List Uid) :
    List Uid → AllocMap → List TransferTask → AllocMap × List TransferTask
  | [], flows, tasks => (flows, tasks)
  | fromBucketID :: rest, flows, tasks =>
    let fromAmount := |(getEntry flows fromBucketID).getD 0|
    let st := innerLoop txID fromBucketID receivingBuckets fromAmount flows tasks
    outerLoop txID receivingBuckets rest st.1 st.2

/-- `GenerateTasks` (inflow test support file, lines 422–535): restrict to
VIRTUAL-layer entries, compute per-anchor net flows, and match senders
(negative flow) with receivers (positive flow). -/
def GenerateTasks (store : BucketStore) (tx : Transaction) :
    Except String (List TransferTask) :=
  let virtualEntries := tx.entries.filter (fun e => decide (e.layer = "VIRTUAL"))
  if virtualEntries.isEmpty then .ok []
  else
    match computeFlows store virtualEntries with
    | .error e => .error e
    | .ok flows =>
      let receivingBuckets := (flows.filter (fun p => decide (0 < p.2))).map Prod.fst
      let sendingBuckets := (flows.filter (fun p => decide (p.2 < 0))).map Prod.fst
      .ok (outerLoop tx.id receivingBuckets sendingBuckets flows []).2

/-! ## Inflow service (`usecase/inflow`, `RecordInflow`) -/

/-- `domain.SplitRule` (name dropped). -/
structure SplitRule where
  sourceBucketID : Uid
  items : List SplitRuleItem
deriving DecidableEq, Repr

/-- The Go error strings of the allocator. -/
def AllocError.message : AllocError → String
  | .nonPositiveTotal => "total amount must be positive"
  | .emptyItems => "items list cannot be empty"
  | .fixedOverflow => "FIXED amount exceeds remaining balance"
  | .noRemainder => "no REMAINDER item found"
  | .imbalance => "total allocation does not equal total amount"

/-- The repositories seen by the inflow service. -/
structure InflowEnv where
  buckets : BucketStore
  /-- `SplitRuleRepo.GetBySourceBucketID`. -/
  splitRule : Uid → Option SplitRule

/-- `inflow.RecordInflowInput`. -/
structure RecordInflowInput where
  amount : Money
  description : String
  sourceBucketID : Uid
  isExternal : Bool
deriving DecidableEq, Repr

/-- The target-validation loop of `recordExternalInflow`: every allocated
target must be a VIRTUAL bucket sharing the given parent physical bucket. -/
def validateTargets (store : BucketStore) (parentID : Uid) :
    List Uid → Option String
  | [] => none
  | bucketID :: rest =>
    match store bucketID with
    | none => some "bucket not found"
    | some targetBucket =>
      if targetBucket.bucketType ≠ .virtual then
        some "all split rule target buckets must be virtual buckets"
      else
        match targetBucket.parentPhysicalBucketID with
        | none => some "virtual bucket must have a parent physical bucket"
        | some pid =>
          if pid ≠ parentID then
            some "all split rule target buckets must belong to the same parent physical bucket"
          else validateTargets store parentID rest

/-- `InflowService.recordExternalInflow` (inflow service file, lines 81–211):
fetch the split rule, run the allocator, infer the physical destination from
the first rule item's target, validate all targets, build the transaction
(physical debit of the parent, physical credit of the source, one virtual
debit per allocated target, virtual credit of the source), self-validate.
Persistence is modelled by returning the transaction; an error means nothing
was persisted and no balance changed. -/
def recordExternalInflow (env : InflowEnv) (txID : Uid)
    (input : RecordInflowInput) : Except String Transaction :=
  match env.splitRule input.sourceBucketID with
  | none => .error "split rule not found"
  | some splitRule =>
    match CalculateAllocation input.amount splitRule.items with
    | .error e => .error e.message
    | .ok allocation =>
      match splitRule.items.head? with
      | none => .error "split rule must have at least one item"
      | some firstItem =>
        match env.buckets firstItem.targetBucketID with
        | none => .error "bucket not found"
        | some firstTargetBucket =>
          if firstTargetBucket.bucketType ≠ .virtual then
            .error "split rule target buckets must be virtual buckets"
          else
            match firstTargetBucket.parentPhysicalBucketID with
            | none => .error "virtual bucket must have a parent physical bucket"
            | some parentPhysicalBucketID =>
              match validateTargets env.buckets parentPhysicalBucketID
                  (keysOf allocation) with
              | some msg => .error msg
              | none =>
                let tx : Transaction :=
                  { id := txID
                    description := input.description
                    isInternalTransfer := false
                    isExternalInflow := true
                    entries :=
                      ⟨parentPhysicalBucketID, input.amount, "DEBIT", "PHYSICAL"⟩ ::
                      ⟨input.sourceBucketID, input.amount, "CREDIT", "PHYSICAL"⟩ ::
                      (allocation.map
                        (fun p => ⟨p.1, p.2, "DEBIT", "VIRTUAL"⟩) ++
                       [⟨input.sourceBucketID, input.amount, "CREDIT", "VIRTUAL"⟩]) }
                match Transaction.Validate tx with
                | some msg => .error msg
                | none => .ok tx

/-- `InflowService.RecordInflow` (lines 54–78): validate the amount, fetch the
source bucket (must be INCOME), and dispatch on `isExternal`. -/
def RecordInflow (env : InflowEnv) (txID : Uid) (input : RecordInflowInput) :
    Except String Transaction :=
  if input.amount ≤ 0 then .error "inflow amount must be positive"
  else
    match env.buckets input.sourceBucketID with
    | none => .error "bucket not found"
    | some sourceBucket =>
      if sourceBucket.bucketType ≠ .income then
        .error "source bucket must be an income bucket"
      else if input.isExternal then recordExternalInflow env txID input
      else .error "internal transfer inflow not yet implemented"

/-! ## Market values, investment and dashboard services -/

/-- `domain.MarketValueHistory` (id dropped; the date is an abstract
timestamp, modelled as `Nat`). -/
structure MarketValuePoint where
  bucketID : Uid
  date : Nat
  marketValue : Money
deriving DecidableEq, Repr

/-- The whole persistent state seen by the dashboard and investment
services. -/
structure Store where
  buckets : List Bucket
  marketValues : List MarketValuePoint
  transactions : List Transaction
deriving Repr

/-- `BucketRepo.GetByID` over the list store. -/
def findBucket (store : Store) (bucketID : Uid) : Option Bucket :=
  store.buckets.find? (fun b => decide (b.id = bucketID))

/-- `MarketValueRepo.GetLatest`: `ORDER BY date DESC LIMIT 1` — the point of
highest date for the bucket (`none` models the no-rows error; SQL leaves the
order of equal dates unspecified, the fold keeps the earlier row on ties). -/
def getLatest (mvs : List MarketValuePoint) (bucketID : Uid) :
    Option MarketValuePoint :=
  (mvs.filter (fun p => decide (p.bucketID = bucketID))).foldl
    (fun acc p =>
      match acc with
      | none => some p
      | some q => if q.date < p.date then some p else some q) none

/-- `InvestmentService.UpdateMarketValue` (`usecase/investment/service.go`
lines 30–56): reject a non-positive value, require the bucket to exist, and
append one market-value point; no transaction is created and no balance is
touched. -/
def UpdateMarketValue (store : Store) (now : Nat) (bucketID : Uid)
    (amount : Money) : Except String (Store × MarketValuePoint) :=
  if amount ≤ 0 then .error "market value must be positive"
  else
    match findBucket store bucketID with
    | none => .error "bucket not found"
    | some _ =>
      let entry : MarketValuePoint := ⟨bucketID, now, amount⟩
      .ok ({ store with marketValues := store.marketValues ++ [entry] }, entry)

/-- `dashboard.NetWorthResult`. -/
structure NetWorthResult where
  total : Money
  liquidity : Money
  equity : Money
deriving DecidableEq, Repr

/-- `DashboardService.GetNetWorth` (dashboard service file, lines 43–81):
liquidity is the sum of all PHYSICAL bucket balances; equity accumulates the
latest market value of each EQUITY bucket, skipping buckets without history
(`continue`); total is their sum. -/
def GetNetWorth (store : Store) : NetWorthResult :=
  let liquidity :=
    ((store.buckets.filter (fun b => decide (b.bucketType = .physical))).map
      (·.currentBalance)).sum
  let equity :=
    (store.buckets.filter (fun b => decide (b.bucketType = .equity))).foldl
      (fun acc b =>
        match getLatest store.marketValues b.id with
        | none => acc
        | some mv => acc + mv.marketValue) 0
  { total := liquidity + equity, liquidity := liquidity, equity := equity }

/-- Claim-side equity (spec §4.6): the sum over all EQUITY buckets of the
latest market value, a bucket without any point contributing exactly 0. -/
def equitySpec (store : Store) : Money :=
  ((store.buckets.filter (fun b => decide (b.bucketType = .equity))).map
    (fun b => ((getLatest store.marketValues b.id).map (·.marketValue)).getD 0)).sum

/-- Claim-side liquidity (spec §4.6): the sum of `currentBalance` over all
PHYSICAL buckets. -/
def liquiditySpec (store : Store) : Money :=
  ((store.buckets.filter (fun b => decide (b.bucketType = .physical))).map
    (·.currentBalance)).sum

/-! ### Concrete fixtures used by the witnesses -/

/-- Standard-expense scenario: Main Bank (1, PHYSICAL), Unallocated
(2, VIRTUAL, parent 1), Groceries (3, EXPENSE). -/
def demoStore : BucketStore := fun u =>
  if u = 1 then some ⟨1, "Main Bank", .physical, none, 1000⟩
  else if u = 2 then some ⟨2, "Unallocated", .virtual, some 1, 1000⟩
  else if u = 3 then some ⟨3, "Groceries", .expense, none, 0⟩
  else none

/-- Opening balances of the standard-expense scenario. -/
def demoBalances : Uid → Money := fun u =>
  if u = 1 then 1000 else if u = 2 then 1000 else 0

/-- Wrong-card scenario: Checking (11, PHYSICAL), CreditCard (12, PHYSICAL),
FreeCash (13, VIRTUAL, parent 11), Groceries (14, EXPENSE). -/
def overrideStore : BucketStore := fun u =>
  if u = 11 then some ⟨11, "Checking", .physical, none, 0⟩
  else if u = 12 then some ⟨12, "CreditCard", .physical, none, 0⟩
  else if u = 13 then some ⟨13, "FreeCash", .virtual, some 11, 0⟩
  else if u = 14 then some ⟨14, "Groceries", .expense, none, 0⟩
  else none

/-- Inter-bank transfer scenario: two banks (31, 32, PHYSICAL) with one
virtual bucket each (33 parent 31, 34 parent 32). -/
def twoBankStore : BucketStore := fun u =>
  if u = 31 then some ⟨31, "Bank 1", .physical, none, 0⟩
  else if u = 32 then some ⟨32, "Bank 2", .physical, none, 0⟩
  else if u = 33 then some ⟨33, "Free Cash", .virtual, some 31, 0⟩
  else if u = 34 then some ⟨34, "Investment Fund", .virtual, some 32, 0⟩
  else none

/-- Zero-allocation inflow scenario: Bank (20, PHYSICAL), Employer
(21, INCOME), FreeCash (22, VIRTUAL parent 20), Rest (23, VIRTUAL parent
20); the split rule of source 21 is PERCENT 0 → 22, REMAINDER → 23. -/
def zeroInflowEnv : InflowEnv where
  buckets := fun u =>
    if u = 20 then some ⟨20, "Bank", .physical, none, 0⟩
    else if u = 21 then some ⟨21, "Employer", .income, none, 0⟩
    else if u = 22 then some ⟨22, "FreeCash", .virtual, some 20, 0⟩
    else if u = 23 then some ⟨23, "Rest", .virtual, some 20, 0⟩
    else none
  splitRule := fun u =>
    if u = 21 then some ⟨21, [⟨22, .percent, 0, 1⟩, ⟨23, .remainder, 0, 2⟩]⟩
    else none

/-! ### Helper lemmas about the allocator folds -/

lemma fixedStep_skip {item : SplitRuleItem} (h : item.itemType ≠ .fixed)
    (st : Except AllocError FixedState) : fixedStep st item = st := by
  cases st <;> simp [fixedStep, h]

lemma foldl_fixedStep_filter (l : List SplitRuleItem)
    (st : Except AllocError FixedState) :
    l.foldl fixedStep st =
      (l.filter (fun i => decide (i.itemType = .fixed))).foldl fixedStep st := by
  induction l generalizing st with
  | nil => rfl
  | cons x xs ih =>
    by_cases hx : x.itemType = .fixed
    · simp [List.filter_cons, hx, ih]
    · simp [List.filter_cons, hx, fixedStep_skip hx, ih]

lemma foldl_fixedStep_eq_spec (l : List SplitRuleItem)
    (h : ∀ i ∈ l, i.itemType = .fixed) (st : Except AllocError FixedState) :
    l.foldl fixedStep st = l.foldl specFixedStep st := by
  induction l generalizing st with
  | nil => rfl
  | cons x xs ih =>
    have hx := h x (List.mem_cons_self x xs)
    have hstep : fixedStep st x = specFixedStep st x := by
      cases st <;> simp [fixedStep, specFixedStep, hx]
    rw [List.foldl_cons, List.foldl_cons, hstep,
      ih (fun i hi => h i (List.mem_cons_of_mem x hi))]

lemma foldl_specFixedStep_error (l : List SplitRuleItem) (e : AllocError) :
    l.foldl specFixedStep (.error e) = .error e := by
  induction l with
  | nil => rfl
  | cons x xs ih => simpa [specFixedStep] using ih

lemma specFixedPass_remaining (l : List SplitRuleItem) :
    ∀ (m : AllocMap) (rem : Money) (s : FixedState),
      l.foldl specFixedStep (.ok ⟨m, rem⟩) = .ok s →
      s.remaining = rem - (l.map (·.value)).sum := by
  induction l with
  | nil =>
    intro m rem s h
    simp only [List.foldl_nil] at h
    cases h
    simp
  | cons x xs ih =>
    intro m rem s h
    rw [List.foldl_cons] at h
    by_cases hlt : rem < x.value
    · rw [show specFixedStep (.ok ⟨m, rem⟩) x = .error .fixedOverflow by
        simp [specFixedStep, hlt], foldl_specFixedStep_error] at h
      cases h
    · rw [show specFixedStep (.ok ⟨m, rem⟩) x =
          .ok ⟨setEntry m x.targetBucketID x.value, rem - x.value⟩ by
        simp [specFixedStep, hlt]] at h
      have := ih _ _ _ h
      rw [this, List.map_cons, List.sum_cons]
      ring

lemma percentStep_skip {item : SplitRuleItem} (h : item.itemType ≠ .percent)
    (b : Money) (m : AllocMap) : percentStep b m item = m := by
  simp [percentStep, h]

lemma foldl_percentStep_filter (l : List SplitRuleItem) (b : Money) (m : AllocMap) :
    l.foldl (percentStep b) m =
      (l.filter (fun i => decide (i.itemType = .percent))).foldl (percentStep b) m := by
  induction l generalizing m with
  | nil => rfl
  | cons x xs ih =>
    by_cases hx : x.itemType = .percent
    · simp [List.filter_cons, hx, ih]
    · simp [List.filter_cons, hx, percentStep_skip hx, ih]

lemma foldl_percentStep_eq_spec (l : List SplitRuleItem)
    (h : ∀ i ∈ l, i.itemType = .percent) (b : Money) (m : AllocMap) :
    l.foldl (percentStep b) m = l.foldl (specPercentStep b) m := by
  induction l generalizing m with
  | nil => rfl
  | cons x xs ih =>
    have hx := h x (List.mem_cons_self x xs)
    rw [List.foldl_cons, List.foldl_cons,
      show percentStep b m x = specPercentStep b m x by
        simp [percentStep, specPercentStep, hx],
      ih (fun i hi => h i (List.mem_cons_of_mem x hi))]

/-! ### The insertion sort is a permutation -/

lemma insertByPriority_perm (x : SplitRuleItem) (l : List SplitRuleItem) :
    (insertByPriority x l).Perm (x :: l) := by
  induction l with
  | nil => exact List.Perm.refl _
  | cons y ys ih =>
    rw [insertByPriority]
    by_cases hp : x.priority < y.priority
    · simp [hp]
    · simp only [hp, if_false]
      exact (ih.cons y).trans (List.Perm.swap x y ys)

lemma sortByPriority_perm (l : List SplitRuleItem) :
    (sortByPriority l).Perm l := by
  induction l with
  | nil => exact List.Perm.refl _
  | cons x xs ih =>
    exact (insertByPriority_perm x (sortByPriority xs)).trans (ih.cons x)

/-! ### `find?` and uniqueness -/

lemma find?_eq_head?_filter {α : Type} (p : α → Bool) (l : List α) :
    l.find? p = (l.filter p).head? := by
  induction l with
  | nil => rfl
  | cons x xs ih =>
    cases hx : p x with
    | true =>
      rw [List.find?_cons_of_pos _ hx, List.filter_cons_of_pos hx, List.head?_cons]
    | false =>
      rw [List.find?_cons_of_neg _ (by simp [hx]),
        List.filter_cons_of_neg (by simp [hx]), ih]

lemma perm_singleton_eq {α : Type} {l : List α} {a : α} (h : l.Perm [a]) :
    l = [a] := by
  have hlen : l.length = 1 := by simpa using h.length_eq
  obtain ⟨b, hb⟩ := List.length_eq_one.mp hlen
  subst hb
  have hab : a = b := by
    have hm : a ∈ [b] := h.symm.subset (by simp)
    simpa using hm
  rw [hab]

lemma find?_congr_perm_of_countP_one {α : Type} {p : α → Bool}
    {l l' : List α} (hp : l.Perm l') (hc : l.countP p = 1) :
    l.find? p = l'.find? p := by
  rw [find?_eq_head?_filter, find?_eq_head?_filter]
  rw [List.countP_eq_length_filter] at hc
  obtain ⟨a, ha⟩ := List.length_eq_one.mp hc
  have h2 : (l'.filter p).Perm [a] := by
    rw [← ha]
    exact (hp.filter p).symm
  rw [ha, perm_singleton_eq h2]

/-! ### Keys and sums of the allocation map -/

lemma mem_keysOf_setEntry {m : AllocMap} {k j : Uid} {v : Money}
    (h : j ∈ keysOf (setEntry m k v)) : j ∈ keysOf m ∨ j = k := by
  unfold setEntry at h
  by_cases hc : m.any (fun p => decide (p.1 = k))
  · rw [if_pos hc] at h
    simp only [keysOf, List.map_map, List.mem_map] at h
    obtain ⟨p, hp, hpe⟩ := h
    by_cases hpk : p.1 = k
    · right
      simpa [hpk] using hpe.symm
    · left
      simp only [Function.comp, hpk, if_false] at hpe
      exact List.mem_map.mpr ⟨p, hp, hpe⟩
  · rw [if_neg hc] at h
    simp only [keysOf, List.map_append, List.mem_append, List.map_cons,
      List.mem_singleton] at h
    rcases h with h | h
    · exact Or.inl h
    · simpa using Or.inr h

lemma any_eq_false_of_not_mem_keysOf {m : AllocMap} {k : Uid}
    (h : k ∉ keysOf m) : m.any (fun p => decide (p.1 = k)) = false := by
  rw [List.any_eq_false]
  intro p hp
  simp only [decide_eq_true_eq]
  intro hpk
  exact h (List.mem_map.mpr ⟨p, hp, hpk⟩)

lemma setEntry_of_not_mem_keysOf {m : AllocMap} {k : Uid} {v : Money}
    (h : k ∉ keysOf m) : setEntry m k v = m ++ [(k, v)] := by
  unfold setEntry
  rw [any_eq_false_of_not_mem_keysOf h]
  simp

lemma sumValues_setEntry_of_not_mem {m : AllocMap} {k : Uid} {v : Money}
    (h : k ∉ keysOf m) : sumValues (setEntry m k v) = sumValues m + v := by
  rw [setEntry_of_not_mem_keysOf h]
  simp [sumValues]

lemma mem_keysOf_foldl_percentStep {l : List SplitRuleItem} {b : Money}
    {m : AllocMap} {j : Uid} (h : j ∈ keysOf (l.foldl (percentStep b) m)) :
    j ∈ keysOf m ∨ j ∈ l.map (·.targetBucketID) := by
  induction l generalizing m with
  | nil => exact Or.inl h
  | cons x xs ih =>
    rw [List.foldl_cons] at h
    rcases ih h with h' | h'
    · unfold percentStep at h'
      by_cases hx : x.itemType = .percent
      · rw [if_pos hx] at h'
        rcases mem_keysOf_setEntry h' with h'' | h''
        · exact Or.inl h''
        · exact Or.inr (by simp [h''])
      · rw [if_neg hx] at h'
        exact Or.inl h'
    · exact Or.inr (by rw [List.map_cons]; exact List.mem_cons_of_mem _ h')

lemma foldl_fixedStep_error (l : List SplitRuleItem) (e : AllocError) :
    l.foldl fixedStep (.error e) = .error e := by
  induction l with
  | nil => rfl
  | cons x xs ih => simpa [fixedStep] using ih

lemma mem_keysOf_fixedPass {l : List SplitRuleItem} :
    ∀ {m : AllocMap} {rem : Money} {s : FixedState} {j : Uid},
      l.foldl fixedStep (.ok ⟨m, rem⟩) = .ok s →
      j ∈ keysOf s.alloc → j ∈ keysOf m ∨ j ∈ l.map (·.targetBucketID) := by
  induction l with
  | nil =>
    intro m rem s j h hj
    simp only [List.foldl_nil] at h
    cases h
    exact Or.inl hj
  | cons x xs ih =>
    intro m rem s j h hj
    rw [List.foldl_cons] at h
    by_cases hx : x.itemType = .fixed
    · by_cases hlt : rem < x.value
      · rw [show fixedStep (.ok ⟨m, rem⟩) x = .error .fixedOverflow by
          simp [fixedStep, hx, hlt]] at h
        rw [foldl_fixedStep_error] at h
        cases h
      · rw [show fixedStep (.ok ⟨m, rem⟩) x =
            .ok ⟨setEntry m x.targetBucketID x.value, rem - x.value⟩ by
          simp [fixedStep, hx, hlt]] at h
        rcases ih h hj with h' | h'
        · rcases mem_keysOf_setEntry h' with h'' | h''
          · exact Or.inl h''
          · exact Or.inr (by rw [List.map_cons, h'']; exact List.mem_cons_self _ _)
        · exact Or.inr (by rw [List.map_cons]; exact List.mem_cons_of_mem _ h')
    · rw [fixedStep_skip hx] at h
      rcases ih h hj with h' | h'
      · exact Or.inl h'
      · exact Or.inr (by rw [List.map_cons]; exact List.mem_cons_of_mem _ h')

/-! ### The allocator implements the claimed algorithm -/

lemma calcAllocation_eq_spec (totalAmount : Money) (items : List SplitRuleItem)
    (h0 : 0 < totalAmount)
    (h1 : items.countP (fun i => decide (i.itemType = .remainder)) = 1)
    (h2 : (items.map (·.targetBucketID)).Nodup) :
    CalculateAllocation totalAmount items = allocateSpec totalAmount items := by
  have hne : ¬ totalAmount ≤ 0 := not_le.mpr h0
  have hnil : items ≠ [] := by
    rintro rfl
    simp at h1
  have hemp : items.isEmpty = false := by
    cases items with
    | nil => exact absurd rfl hnil
    | cons a l => rfl
  have hallfixed : ∀ i ∈ (sortByPriority items).filter
      (fun i => decide (i.itemType = .fixed)), i.itemType = .fixed := by
    intro i hi
    simpa using (List.mem_filter.mp hi).2
  have hallpercent : ∀ i ∈ (sortByPriority items).filter
      (fun i => decide (i.itemType = .percent)), i.itemType = .percent := by
    intro i hi
    simpa using (List.mem_filter.mp hi).2
  have hfind : findRemainderItem (sortByPriority items) =
      items.find? (fun i => decide (i.itemType = .remainder)) := by
    unfold findRemainderItem
    exact find?_congr_perm_of_countP_one (sortByPriority_perm items)
      (((sortByPriority_perm items).countP_eq _).trans h1)
  unfold CalculateAllocation allocateSpec
  rw [if_neg hne, if_neg hne, hemp]
  simp only [Bool.false_eq_true, if_false]
  rw [foldl_fixedStep_filter, foldl_fixedStep_eq_spec _ hallfixed]
  cases hfp : ((sortByPriority items).filter
      (fun i => decide (i.itemType = .fixed))).foldl specFixedStep
      (.ok ⟨[], totalAmount⟩) with
  | error e => rfl
  | ok s =>
    dsimp only
    have hrem := specFixedPass_remaining _ _ _ _ hfp
    rw [foldl_percentStep_filter, foldl_percentStep_eq_spec _ hallpercent,
      hfind, ← hrem]
    cases hr : items.find? (fun i => decide (i.itemType = .remainder)) with
    | none => rfl
    | some rItem =>
      dsimp only
      have hrmem : rItem ∈ items := List.mem_of_find?_eq_some hr
      have hrtype : rItem.itemType = .remainder := by
        simpa using List.find?_some hr
      have hnotkey : rItem.targetBucketID ∉ keysOf
          (((sortByPriority items).filter
            (fun i => decide (i.itemType = .percent))).foldl
              (specPercentStep s.remaining) s.alloc) := by
        intro hk
        rw [← foldl_percentStep_eq_spec _ hallpercent] at hk
        rcases mem_keysOf_foldl_percentStep hk with hk' | hk'
        · -- came from the FIXED pass
          have hfp' : ((sortByPriority items).filter
              (fun i => decide (i.itemType = .fixed))).foldl fixedStep
              (.ok ⟨([] : AllocMap), totalAmount⟩) = .ok s := by
            rw [foldl_fixedStep_eq_spec _ hallfixed]
            exact hfp
          rcases mem_keysOf_fixedPass hfp' hk' with hk'' | hk''
          · simp [keysOf] at hk''
          · rw [List.mem_map] at hk''
            obtain ⟨x, hx, hxe⟩ := hk''
            have hxmem : x ∈ items :=
              (sortByPriority_perm items).subset (List.mem_filter.mp hx).1
            have hxfixed : x.itemType = .fixed := hallfixed x hx
            have hxr : x = rItem :=
              List.inj_on_of_nodup_map h2 hxmem hrmem hxe
            rw [hxr, hrtype] at hxfixed
            cases hxfixed
        · -- came from a PERCENT item
          rw [List.mem_map] at hk'
          obtain ⟨x, hx, hxe⟩ := hk'
          have hxmem : x ∈ items :=
            (sortByPriority_perm items).subset (List.mem_filter.mp hx).1
          have hxpercent : x.itemType = .percent := hallpercent x hx
          have hxr : x = rItem :=
            List.inj_on_of_nodup_map h2 hxmem hrmem hxe
          rw [hxr, hrtype] at hxpercent
          cases hxpercent
      rw [if_pos (by
        rw [sumValues_setEntry_of_not_mem hnotkey]
        ring)]

/-! ## Claims about the allocation engine -/

/-- **C1.**  For every call `allocate(total, items)` with `total > 0` and a
rule containing exactly one REMAINDER item (a valid rule names pairwise
distinct targets): FIXED items are processed in ascending priority, each
failing with ALLOCATION_OVERFLOW if its value exceeds the amount still
remaining and otherwise assigned and subtracted; each PERCENT item is
independently assigned `(total − Σ FIXED values) × value ÷ 100` against the
same post-FIXED snapshot; the REMAINDER item receives `total` minus
everything assigned so far — i.e. `CalculateAllocation` coincides with the
algorithm exactly as the claim states it (`allocateSpec`).  Concretely,
allocating 1000 under FIXED 50 / PERCENT 10 / REMAINDER yields 50, 95, 855
(see the witness). -/
theorem allocation_algorithm_matches_claim (totalAmount : Money)
    (items : List SplitRuleItem) (h0 : 0 < totalAmount)
    (h1 : items.countP (fun i => decide (i.itemType = .remainder)) = 1)
    (h2 : (items.map (·.targetBucketID)).Nodup) :
    CalculateAllocation totalAmount items = allocateSpec totalAmount items :=
  calcAllocation_eq_spec totalAmount items h0 h1 h2

/-- Witness for C1: the Church/Football split — FIXED 50 (priority 1),
PERCENT 10 (priority 2), REMAINDER (priority 3), total 1000 — satisfies the
hypotheses, the theorem applies, and the result is 50 / 95 / 855. -/
theorem allocation_algorithm_matches_claim_witness :
    CalculateAllocation 1000
        [⟨1, .fixed, 50, 1⟩, ⟨2, .percent, 10, 2⟩, ⟨3, .remainder, 0, 3⟩] =
      allocateSpec 1000
        [⟨1, .fixed, 50, 1⟩, ⟨2, .percent, 10, 2⟩, ⟨3, .remainder, 0, 3⟩] ∧
    CalculateAllocation 1000
        [⟨1, .fixed, 50, 1⟩, ⟨2, .percent, 10, 2⟩, ⟨3, .remainder, 0, 3⟩] =
      .ok [(1, 50), (2, 95), (3, 855)] :=
  ⟨allocation_algorithm_matches_claim 1000 _ (by norm_num) (by decide) (by decide),
   by
    norm_num +decide [CalculateAllocation, sortByPriority, insertByPriority,
      fixedStep, percentStep, findRemainderItem, setEntry, sumValues,
      List.find?, List.foldl]⟩

/-- **C2.**  Whenever `CalculateAllocation(total, items)` returns
successfully — for any total and any item list, including lists with
duplicate targets — the sum of the assigned amounts equals the total
exactly. -/
theorem allocation_totality (totalAmount : Money) (items : List SplitRuleItem)
    (alloc : AllocMap) (h : CalculateAllocation totalAmount items = .ok alloc) :
    sumValues alloc = totalAmount := by
  unfold CalculateAllocation at h
  split at h
  · cases h
  · split at h
    · cases h
    · dsimp only at h
      split at h
      · cases h
      · split at h
        · cases h
        · split at h
          · injection h with h'
            rw [← h']
            assumption
          · cases h

/-- Witness for C2: the theorem applied to the Church/Football run. -/
theorem allocation_totality_witness :
    sumValues [(1, 50), (2, 95), (3, 855)] = 1000 :=
  allocation_totality 1000
    [⟨1, .fixed, 50, 1⟩, ⟨2, .percent, 10, 2⟩, ⟨3, .remainder, 0, 3⟩]
    [(1, 50), (2, 95), (3, 855)]
    (by
      norm_num +decide [CalculateAllocation, sortByPriority, insertByPriority,
        fixedStep, percentStep, findRemainderItem, setEntry, sumValues,
        List.find?, List.foldl])

/-- **C3 counterexample.**  The claim says a negative computed REMAINDER
amount makes the allocation fail with ALLOCATION_OVERFLOW and that a
successful allocation never contains a negative amount.  The code has no such
check: with two PERCENT 80 items over total 100 the call SUCCEEDS and the
REMAINDER target receives −60. -/
theorem allocation_negative_remainder_cex :
    CalculateAllocation 100
        [⟨1, .percent, 80, 1⟩, ⟨2, .percent, 80, 2⟩, ⟨3, .remainder, 0, 3⟩] =
      .ok [(1, 80), (2, 80), (3, -60)] ∧
    getEntry [(1, 80), (2, 80), (3, -60)] 3 = some (-60) ∧ ((-60 : Money) < 0) := by
  refine ⟨?_, by norm_num [getEntry, List.find?], by norm_num⟩
  norm_num +decide [CalculateAllocation, sortByPriority, insertByPriority,
    fixedStep, percentStep, findRemainderItem, setEntry, sumValues,
    List.find?, List.foldl]

/-- **C3 (amended).**  When the computed REMAINDER amount is negative the
allocation does not fail: `CalculateAllocation` performs no non-negativity
check, so for any rule of two PERCENT items (each within the valid 0–100
range) whose percentages exceed 100, the call succeeds and the REMAINDER
item receives the strictly negative amount `total × (100 − p₁ − p₂) ÷ 100`;
a successful allocation can therefore contain a negative amount. -/
theorem allocation_negative_remainder_succeeds (total p₁ p₂ : Money)
    (h0 : 0 < total) (hp1 : 0 ≤ p₁) (hp1' : p₁ ≤ 100)
    (hp2 : 0 ≤ p₂) (hp2' : p₂ ≤ 100) (hover : 100 < p₁ + p₂) :
    CalculateAllocation total
        [⟨1, .percent, p₁, 1⟩, ⟨2, .percent, p₂, 2⟩, ⟨3, .remainder, 0, 3⟩] =
      .ok [(1, total * p₁ / 100), (2, total * p₂ / 100),
           (3, total * (100 - p₁ - p₂) / 100)] ∧
    total * (100 - p₁ - p₂) / 100 < 0 := by
  constructor
  · norm_num +decide [CalculateAllocation, sortByPriority, insertByPriority,
      fixedStep, percentStep, findRemainderItem, setEntry, sumValues,
      List.find?, List.foldl, h0.not_le]
    rw [if_pos (by ring)]
    rw [show total - (total * p₁ / 100 + total * p₂ / 100) =
      total * (100 - p₁ - p₂) / 100 by ring]
  · apply div_neg_of_neg_of_pos _ (by norm_num)
    exact mul_neg_of_pos_of_neg h0 (by linarith)

/-- Witness for the amended C3: total 100 with PERCENT 80 + PERCENT 80. -/
theorem allocation_negative_remainder_succeeds_witness :
    CalculateAllocation 100
        [⟨1, .percent, 80, 1⟩, ⟨2, .percent, 80, 2⟩, ⟨3, .remainder, 0, 3⟩] =
      .ok [(1, 100 * 80 / 100), (2, 100 * 80 / 100),
           (3, 100 * (100 - 80 - 80) / 100)] ∧
    (100 : Money) * (100 - 80 - 80) / 100 < 0 :=
  allocation_negative_remainder_succeeds 100 80 80 (by norm_num) (by norm_num)
    (by norm_num) (by norm_num) (by norm_num) (by norm_num)

/-! ## Claims about transaction self-validation -/

lemma wf_of_partitionEntries_ok {es : List TransactionEntry}
    {pv : List TransactionEntry × List TransactionEntry}
    (h : partitionEntries es = .ok pv) : ∀ e ∈ es, WellFormedEntry e := by
  induction es generalizing pv with
  | nil =>
    intro e he
    cases he
  | cons x xs ih =>
    intro e he
    rw [partitionEntries] at h
    split at h
    · cases h
    · split at h
      · cases h
      · split at h
        · cases h
        · rename_i hlayer hamt htype
          split at h
          · cases h
          · rename_i ph vi hrec
            have hwfx : WellFormedEntry x := by
              refine ⟨not_le.mp hamt, ?_, ?_⟩
              · rcases not_and_or.mp htype with h' | h' <;>
                  [exact Or.inl (not_not.mp h'); exact Or.inr (not_not.mp h')]
              · rcases not_and_or.mp hlayer with h' | h' <;>
                  [exact Or.inl (not_not.mp h'); exact Or.inr (not_not.mp h')]
            rcases List.mem_cons.mp he with rfl | he'
            · exact hwfx
            · exact ih hrec e he'

lemma partitionEntries_eq_of_wf {es : List TransactionEntry}
    (h : ∀ e ∈ es, WellFormedEntry e) :
    partitionEntries es =
      .ok (es.filter (fun e => decide (e.layer = "PHYSICAL")),
           es.filter (fun e => decide (e.layer = "VIRTUAL"))) := by
  induction es with
  | nil => rfl
  | cons x xs ih =>
    obtain ⟨hamt, htype, hlayer⟩ := h x (List.mem_cons_self x xs)
    have hrest := ih (fun e he => h e (List.mem_cons_of_mem x he))
    rw [partitionEntries,
      if_neg (by
        intro hc
        rcases hlayer with h' | h'
        · exact hc.1 h'
        · exact hc.2 h'),
      if_neg (not_le.mpr hamt),
      if_neg (by
        intro hc
        rcases htype with h' | h'
        · exact hc.1 h'
        · exact hc.2 h'),
      hrest]
    dsimp only
    rcases hlayer with hP | hV
    · have hnV : ¬ x.layer = "VIRTUAL" := by rw [hP]; decide
      rw [if_pos hP]
      simp [List.filter_cons, hP, hnV]
    · have hnP : ¬ x.layer = "PHYSICAL" := by rw [hV]; decide
      rw [if_neg hnP]
      simp [List.filter_cons, hV, hnP]

lemma validateLayerBalance_none_iff (entries : List TransactionEntry) (L : String) :
    validateLayerBalance entries L = none ↔
      (entries = [] ∨
        ((entries.filter (fun e => decide (e.entryType = "DEBIT"))).map (·.amount)).sum =
          ((entries.filter (fun e => decide (¬ e.entryType = "DEBIT"))).map (·.amount)).sum) := by
  unfold validateLayerBalance
  cases entries with
  | nil => simp
  | cons x xs =>
    dsimp only [List.isEmpty_cons]
    by_cases hs :
        (((x :: xs).filter (fun e => decide (e.entryType = "DEBIT"))).map (·.amount)).sum =
          (((x :: xs).filter (fun e => decide (¬ e.entryType = "DEBIT"))).map (·.amount)).sum
    · simp [hs]
    · simp [hs]

lemma layer_debit_sum_eq (entries : List TransactionEntry) (L : String) :
    (((entries.filter (fun e => decide (e.layer = L))).filter
      (fun e => decide (e.entryType = "DEBIT"))).map (·.amount)).sum =
      layerDebitSum entries L := by
  rw [List.filter_filter]
  unfold layerDebitSum
  congr 2
  apply List.filter_congr
  intro e _
  by_cases h1 : e.layer = L <;> by_cases h2 : e.entryType = "DEBIT" <;>
    simp [h1, h2]

lemma layer_credit_sum_eq (entries : List TransactionEntry) (L : String)
    (hwf : ∀ e ∈ entries, WellFormedEntry e) :
    (((entries.filter (fun e => decide (e.layer = L))).filter
      (fun e => decide (¬ e.entryType = "DEBIT"))).map (·.amount)).sum =
      layerCreditSum entries L := by
  rw [List.filter_filter]
  unfold layerCreditSum
  congr 2
  apply List.filter_congr
  intro e he
  rcases (hwf e he).2.1 with hD | hC
  · by_cases h1 : e.layer = L <;> simp +decide [h1, hD]
  · have hnD : ¬ e.entryType = "DEBIT" := by rw [hC]; decide
    by_cases h1 : e.layer = L <;> simp +decide [h1, hC, hnD]

/-- **C4.**  `Transaction.Validate` succeeds exactly when the transaction has
at least one entry, every entry has a strictly positive amount, a DEBIT or
CREDIT direction and a PHYSICAL or VIRTUAL layer, and each layer that has at
least one entry balances exactly (Σ DEBIT = Σ CREDIT); an absent layer
imposes no constraint. -/
theorem transaction_validate_iff (t : Transaction) :
    Transaction.Validate t = none ↔
      (t.entries ≠ [] ∧ (∀ e ∈ t.entries, WellFormedEntry e) ∧
       ∀ L ∈ ["PHYSICAL", "VIRTUAL"],
         (∃ e ∈ t.entries, e.layer = L) →
           layerDebitSum t.entries L = layerCreditSum t.entries L) := by
  unfold Transaction.Validate
  constructor
  · intro h
    by_cases hemp : t.entries.isEmpty
    · rw [if_pos hemp] at h
      cases h
    · rw [if_neg hemp] at h
      have hne : t.entries ≠ [] := by
        intro hnil
        rw [hnil] at hemp
        exact hemp rfl
      cases hp : partitionEntries t.entries with
      | error msg =>
        rw [hp] at h
        cases h
      | ok pv =>
        obtain ⟨ph, vi⟩ := pv
        rw [hp] at h
        have hwf := wf_of_partitionEntries_ok hp
        have hfo := partitionEntries_eq_of_wf hwf
        rw [hp] at hfo
        injection hfo with h2
        injection h2 with hph hvi
        subst hph
        subst hvi
        dsimp only at h
        refine ⟨hne, hwf, ?_⟩
        cases hv1 : validateLayerBalance
            (t.entries.filter (fun e => decide (e.layer = "PHYSICAL")))
            "PHYSICAL" with
        | some msg =>
          rw [hv1] at h
          cases h
        | none =>
          rw [hv1] at h
          intro L hL hex
          have hLcases : L = "PHYSICAL" ∨ L = "VIRTUAL" := by simpa using hL
          obtain ⟨e, hee, hel⟩ := hex
          rcases hLcases with rfl | rfl
          · rcases (validateLayerBalance_none_iff _ _).mp hv1 with hnil | hsum
            · have hmemf : e ∈ t.entries.filter
                  (fun e => decide (e.layer = "PHYSICAL")) :=
                List.mem_filter.mpr ⟨hee, by simp [hel]⟩
              rw [hnil] at hmemf
              exact absurd hmemf (List.not_mem_nil e)
            · rw [← layer_debit_sum_eq, ← layer_credit_sum_eq _ _ hwf]
              exact hsum
          · rcases (validateLayerBalance_none_iff _ _).mp h with hnil | hsum
            · have hmemf : e ∈ t.entries.filter
                  (fun e => decide (e.layer = "VIRTUAL")) :=
                List.mem_filter.mpr ⟨hee, by simp [hel]⟩
              rw [hnil] at hmemf
              exact absurd hmemf (List.not_mem_nil e)
            · rw [← layer_debit_sum_eq, ← layer_credit_sum_eq _ _ hwf]
              exact hsum
  · rintro ⟨hne, hwf, hbal⟩
    have hemp : t.entries.isEmpty = false := by
      cases hnil : t.entries with
      | nil => exact absurd hnil hne
      | cons a l => rfl
    rw [if_neg (by rw [hemp]; exact Bool.false_ne_true),
      partitionEntries_eq_of_wf hwf]
    dsimp only
    have hv1 : validateLayerBalance
        (t.entries.filter (fun e => decide (e.layer = "PHYSICAL")))
        "PHYSICAL" = none := by
      rw [validateLayerBalance_none_iff]
      by_cases hmem : ∃ e ∈ t.entries, e.layer = "PHYSICAL"
      · right
        rw [layer_debit_sum_eq, layer_credit_sum_eq _ _ hwf]
        exact hbal "PHYSICAL" (by simp) hmem
      · left
        rw [List.filter_eq_nil_iff]
        intro e hee
        simp only [decide_eq_true_eq]
        exact fun hc => hmem ⟨e, hee, hc⟩
    have hv2 : validateLayerBalance
        (t.entries.filter (fun e => decide (e.layer = "VIRTUAL")))
        "VIRTUAL" = none := by
      rw [validateLayerBalance_none_iff]
      by_cases hmem : ∃ e ∈ t.entries, e.layer = "VIRTUAL"
      · right
        rw [layer_debit_sum_eq, layer_credit_sum_eq _ _ hwf]
        exact hbal "VIRTUAL" (by simp) hmem
      · left
        rw [List.filter_eq_nil_iff]
        intro e hee
        simp only [decide_eq_true_eq]
        exact fun hc => hmem ⟨e, hee, hc⟩
    rw [hv1, hv2]

/-! ## Claims about the expense service -/

/-- **C7.**  Every successful `logExpense` posts a transaction with both
flags false and exactly four entries of the given amount — PHYSICAL CREDIT
of the physical source (the override when provided, otherwise the virtual
bucket's parent), PHYSICAL DEBIT of the category, VIRTUAL CREDIT of the
virtual bucket, VIRTUAL DEBIT of the category — so that under the
balance-maintenance rule the physical source and the virtual bucket each
decrease by the amount while the category bucket gains twice the amount. -/
theorem log_expense_structure (store : BucketStore) (txID : Uid)
    (input : LogExpenseInput) (tx : Transaction)
    (h : LogExpense store txID input = .ok tx) :
    tx.isInternalTransfer = false ∧ tx.isExternalInflow = false ∧
    ∃ src,
      tx.entries =
        [⟨src, input.amount, "CREDIT", "PHYSICAL"⟩,
         ⟨input.categoryBucketID, input.amount, "DEBIT", "PHYSICAL"⟩,
         ⟨input.virtualBucketID, input.amount, "CREDIT", "VIRTUAL"⟩,
         ⟨input.categoryBucketID, input.amount, "DEBIT", "VIRTUAL"⟩] ∧
      (∀ oid, input.physicalOverrideID = some oid → src = oid) ∧
      (input.physicalOverrideID = none →
        ∃ vb, store input.virtualBucketID = some vb ∧
          vb.parentPhysicalBucketID = some src) ∧
      (∀ balances : Uid → Money,
        src ≠ input.virtualBucketID → src ≠ input.categoryBucketID →
        input.virtualBucketID ≠ input.categoryBucketID →
        applyEntries balances tx.entries src = balances src - input.amount ∧
        applyEntries balances tx.entries input.virtualBucketID =
          balances input.virtualBucketID - input.amount ∧
        applyEntries balances tx.entries input.categoryBucketID =
          balances input.categoryBucketID + 2 * input.amount) := by
  unfold LogExpense at h
  split at h
  · cases h
  · split at h
    · cases h
    · rename_i vb hvb
      split at h
      · cases h
      · split at h
        · cases h
        · split at h
          · cases h
          · split at h
            · cases h
            · rename_i src hsrc
              dsimp only at h
              split at h
              · cases h
              · injection h with h'
                subst h'
                refine ⟨rfl, rfl, src, rfl, ?_, ?_, ?_⟩
                · intro oid hov
                  rw [hov] at hsrc
                  dsimp only at hsrc
                  split at hsrc
                  · cases hsrc
                  · split at hsrc
                    · cases hsrc
                    · injection hsrc with h2
                      exact h2.symm
                · intro hov
                  rw [hov] at hsrc
                  dsimp only at hsrc
                  cases hpar : vb.parentPhysicalBucketID with
                  | none =>
                    rw [hpar] at hsrc
                    cases hsrc
                  | some pid =>
                    rw [hpar] at hsrc
                    injection hsrc with h2
                    exact ⟨vb, hvb, by rw [hpar, h2]⟩
                · intro balances h1 h2 h3
                  refine ⟨?_, ?_, ?_⟩ <;>
                    simp +decide [applyEntries, applyEntry, h1, h2, h3,
                      Ne.symm h1, Ne.symm h2, Ne.symm h3] <;> ring

/-- Witness for C7: `logExpense(50, Unallocated, Groceries, no override)`
over Main Bank=1000, Unallocated=1000, Groceries=0 leaves 950, 950, 100. -/
theorem log_expense_structure_witness :
    (∃ tx, LogExpense demoStore 99 ⟨50, "Groceries", 2, 3, none⟩ = .ok tx ∧
      (tx.isInternalTransfer = false ∧ tx.isExternalInflow = false ∧
       ∃ src, tx.entries =
          [⟨src, 50, "CREDIT", "PHYSICAL"⟩, ⟨3, 50, "DEBIT", "PHYSICAL"⟩,
           ⟨2, 50, "CREDIT", "VIRTUAL"⟩, ⟨3, 50, "DEBIT", "VIRTUAL"⟩] ∧
        (∀ oid, (none : Option Uid) = some oid → src = oid) ∧
        ((none : Option Uid) = none →
          ∃ vb, demoStore 2 = some vb ∧ vb.parentPhysicalBucketID = some src) ∧
        (∀ balances : Uid → Money, src ≠ 2 → src ≠ 3 → (2 : Uid) ≠ 3 →
          applyEntries balances tx.entries src = balances src - 50 ∧
          applyEntries balances tx.entries 2 = balances 2 - 50 ∧
          applyEntries balances tx.entries 3 = balances 3 + 2 * 50)) ∧
      applyEntries demoBalances tx.entries 1 = 950 ∧
      applyEntries demoBalances tx.entries 2 = 950 ∧
      applyEntries demoBalances tx.entries 3 = 100) := by
  have hEq : LogExpense demoStore 99 ⟨50, "Groceries", 2, 3, none⟩ =
      .ok ⟨99, "Groceries", false, false,
        [⟨1, 50, "CREDIT", "PHYSICAL"⟩, ⟨3, 50, "DEBIT", "PHYSICAL"⟩,
         ⟨2, 50, "CREDIT", "VIRTUAL"⟩, ⟨3, 50, "DEBIT", "VIRTUAL"⟩]⟩ := by
    norm_num +decide [LogExpense, demoStore, Transaction.Validate,
      partitionEntries, validateLayerBalance, List.filter]
  refine ⟨_, hEq, log_expense_structure demoStore 99 ⟨50, "Groceries", 2, 3, none⟩ _ hEq,
    ?_, ?_, ?_⟩ <;>
    norm_num +decide [applyEntries, applyEntry, demoBalances, List.foldl]

/-! ## Claims about the transfer-task generator -/

/-- **C5 counterexample.**  The claim says the wrong-card override expense
makes the generator emit a CreditCard → Checking task.  It does not: the
generator only inspects VIRTUAL-layer entries, and the expense's virtual
entries (CREDIT FreeCash, DEBIT Groceries) resolve to the single anchor
Checking — Groceries is EXPENSE and skipped — so the net flows have no
positive anchor and the generator emits no task at all. -/
theorem wrong_card_override_cex :
    ∃ tx, LogExpense overrideStore 7 ⟨50, "Dinner", 13, 14, some 12⟩ = .ok tx ∧
      tx.entries =
        [⟨12, 50, "CREDIT", "PHYSICAL"⟩, ⟨14, 50, "DEBIT", "PHYSICAL"⟩,
         ⟨13, 50, "CREDIT", "VIRTUAL"⟩, ⟨14, 50, "DEBIT", "VIRTUAL"⟩] ∧
      GenerateTasks overrideStore tx = .ok [] := by
  refine ⟨⟨7, "Dinner", false, false,
    [⟨12, 50, "CREDIT", "PHYSICAL"⟩, ⟨14, 50, "DEBIT", "PHYSICAL"⟩,
     ⟨13, 50, "CREDIT", "VIRTUAL"⟩, ⟨14, 50, "DEBIT", "VIRTUAL"⟩]⟩, ?_, rfl, ?_⟩
  · norm_num +decide [LogExpense, overrideStore, Transaction.Validate,
      partitionEntries, validateLayerBalance, List.filter]
  · norm_num +decide [GenerateTasks, overrideStore, computeFlows, flowStep,
      anchorOf, getEntry, setEntry, outerLoop, innerLoop, List.filter,
      List.foldl, List.find?]

/-- **C5 (amended).**  After a successful wrong-card `logExpense` (override
CreditCard, virtual FreeCash with parent Checking) the posted transaction
does credit CreditCard in the PHYSICAL layer, credit FreeCash in the VIRTUAL
layer and debit the category in both layers, leaving Checking untouched —
but the transfer-task generator emits NO task for it: only VIRTUAL-layer
entries are analysed, they resolve to the single physical anchor Checking,
and a lone negative anchor produces nothing. -/
theorem wrong_card_override_no_task (amount : Money) (h : 0 < amount) :
    ∃ tx, LogExpense overrideStore 7 ⟨amount, "Dinner", 13, 14, some 12⟩ = .ok tx ∧
      tx.entries =
        [⟨12, amount, "CREDIT", "PHYSICAL"⟩, ⟨14, amount, "DEBIT", "PHYSICAL"⟩,
         ⟨13, amount, "CREDIT", "VIRTUAL"⟩, ⟨14, amount, "DEBIT", "VIRTUAL"⟩] ∧
      GenerateTasks overrideStore tx = .ok [] := by
  have hneg : ¬ (0 : Money) < 0 - amount := by
    intro hc
    linarith
  refine ⟨⟨7, "Dinner", false, false,
    [⟨12, amount, "CREDIT", "PHYSICAL"⟩, ⟨14, amount, "DEBIT", "PHYSICAL"⟩,
     ⟨13, amount, "CREDIT", "VIRTUAL"⟩, ⟨14, amount, "DEBIT", "VIRTUAL"⟩]⟩, ?_, rfl, ?_⟩
  · norm_num +decide [LogExpense, overrideStore, Transaction.Validate,
      partitionEntries, validateLayerBalance, List.filter, h.not_le]
  · norm_num +decide [GenerateTasks, overrideStore, computeFlows, flowStep,
      anchorOf, getEntry, setEntry, outerLoop, innerLoop, List.filter,
      List.foldl, List.find?, hneg, h, not_lt.mpr h.le]

/-- Witness for the amended C5: amount 50. -/
theorem wrong_card_override_no_task_witness :
    ∃ tx, LogExpense overrideStore 7 ⟨50, "Dinner", 13, 14, some 12⟩ = .ok tx ∧
      tx.entries =
        [⟨12, 50, "CREDIT", "PHYSICAL"⟩, ⟨14, 50, "DEBIT", "PHYSICAL"⟩,
         ⟨13, 50, "CREDIT", "VIRTUAL"⟩, ⟨14, 50, "DEBIT", "VIRTUAL"⟩] ∧
      GenerateTasks overrideStore tx = .ok [] :=
  wrong_card_override_no_task 50 (by norm_num)

/-! ## Claims about the dashboard and investment services -/

lemma equity_fold_eq (bs : List Bucket) (mvs : List MarketValuePoint)
    (init : Money) :
    bs.foldl (fun acc b =>
      match getLatest mvs b.id with
      | none => acc
      | some mv => acc + mv.marketValue) init =
    init + (bs.map
      (fun b => ((getLatest mvs b.id).map (·.marketValue)).getD 0)).sum := by
  induction bs generalizing init with
  | nil => simp
  | cons x xs ih =>
    rw [List.foldl_cons, List.map_cons, List.sum_cons]
    cases hx : getLatest mvs x.id with
    | none =>
      rw [ih]
      simp
    | some mv =>
      rw [ih]
      simp
      ring

/-- **C8.**  `GetNetWorth` always returns Total = Liquidity + Equity, where
Liquidity is exactly the sum of `currentBalance` over the PHYSICAL buckets
and Equity is exactly the sum over the EQUITY buckets of the latest
market-value point, an EQUITY bucket without any point contributing 0. -/
theorem net_worth_decomposition (store : Store) :
    (GetNetWorth store).total =
      (GetNetWorth store).liquidity + (GetNetWorth store).equity ∧
    (GetNetWorth store).liquidity = liquiditySpec store ∧
    (GetNetWorth store).equity = equitySpec store := by
  refine ⟨rfl, rfl, ?_⟩
  show (GetNetWorth store).equity = equitySpec store
  unfold GetNetWorth equitySpec
  dsimp only
  rw [equity_fold_eq]
  simp

/-- **C9.**  A successful `updateMarketValue` appends exactly one
market-value point carrying the given value and time, creates no
transactions, and leaves every bucket (hence every `currentBalance`)
unchanged. -/
theorem update_market_value_frame (store : Store) (now : Nat) (bucketID : Uid)
    (amount : Money) (store2 : Store) (entry : MarketValuePoint)
    (h : UpdateMarketValue store now bucketID amount = .ok (store2, entry)) :
    entry = ⟨bucketID, now, amount⟩ ∧
    store2.marketValues = store.marketValues ++ [entry] ∧
    store2.buckets = store.buckets ∧
    store2.transactions = store.transactions := by
  unfold UpdateMarketValue at h
  split at h
  · cases h
  · split at h
    · cases h
    · dsimp only at h
      injection h with h'
      injection h' with hs he
      subst hs
      subst he
      exact ⟨rfl, rfl, rfl, rfl⟩

/-- Witness for C9: EQUITY "Tesla" (id 41) with balance 0 and no history;
after `updateMarketValue(Tesla, 650)` the reported equity is 650, the
liquidity is 0 and Tesla's `currentBalance` is still 0. -/
theorem update_market_value_frame_witness :
    (UpdateMarketValue ⟨[⟨41, "Tesla", .equity, none, 0⟩], [], []⟩ 5 41 650 =
      .ok (⟨[⟨41, "Tesla", .equity, none, 0⟩], [⟨41, 5, 650⟩], []⟩,
        ⟨41, 5, 650⟩)) ∧
    ((⟨41, 5, 650⟩ : MarketValuePoint) = ⟨41, 5, 650⟩ ∧
     ([⟨41, 5, 650⟩] : List MarketValuePoint) = [] ++ [⟨41, 5, 650⟩] ∧
     ([⟨41, "Tesla", .equity, none, 0⟩] : List Bucket) =
       [⟨41, "Tesla", .equity, none, 0⟩] ∧
     ([] : List Transaction) = []) ∧
    (GetNetWorth ⟨[⟨41, "Tesla", .equity, none, 0⟩], [⟨41, 5, 650⟩], []⟩).equity
      = 650 ∧
    (findBucket ⟨[⟨41, "Tesla", .equity, none, 0⟩], [⟨41, 5, 650⟩], []⟩ 41).map
      (·.currentBalance) = some 0 := by
  have hEq : UpdateMarketValue ⟨[⟨41, "Tesla", .equity, none, 0⟩], [], []⟩ 5 41 650 =
      .ok (⟨[⟨41, "Tesla", .equity, none, 0⟩], [⟨41, 5, 650⟩], []⟩,
        ⟨41, 5, 650⟩) := by
    norm_num +decide [UpdateMarketValue, findBucket, List.find?]
  refine ⟨hEq, update_market_value_frame _ 5 41 650 _ _ hEq, ?_, ?_⟩ <;>
    norm_num +decide [GetNetWorth, getLatest, findBucket, List.find?,
      List.filter, List.foldl]

/-! ## Claim about the zero-allocation inflow -/

lemma partitionEntries_error_of_zero {es : List TransactionEntry}
    (hvalid : ∀ e ∈ es, (e.layer = "PHYSICAL" ∨ e.layer = "VIRTUAL") ∧
      (e.entryType = "DEBIT" ∨ e.entryType = "CREDIT"))
    (hz : ∃ e ∈ es, e.amount ≤ 0) :
    partitionEntries es = .error "entry amount must be positive (absolute value)" := by
  induction es with
  | nil =>
    obtain ⟨e, he, _⟩ := hz
    cases he
  | cons x xs ih =>
    obtain ⟨hxl, hxt⟩ := hvalid x (List.mem_cons_self x xs)
    rw [partitionEntries,
      if_neg (by
        intro hc
        rcases hxl with h' | h'
        · exact hc.1 h'
        · exact hc.2 h')]
    by_cases hx : x.amount ≤ 0
    · rw [if_pos hx]
    · rw [if_neg hx,
        if_neg (by
          intro hc
          rcases hxt with h' | h'
          · exact hc.1 h'
          · exact hc.2 h'),
        ih (fun e he => hvalid e (List.mem_cons_of_mem x he)) (by
          obtain ⟨e, he, hea⟩ := hz
          rcases List.mem_cons.mp he with rfl | he'
          · exact absurd hea hx
          · exact ⟨e, he', hea⟩)]

lemma validate_error_of_zero_entry {t : Transaction}
    (hvalid : ∀ e ∈ t.entries, (e.layer = "PHYSICAL" ∨ e.layer = "VIRTUAL") ∧
      (e.entryType = "DEBIT" ∨ e.entryType = "CREDIT"))
    (hz : ∃ e ∈ t.entries, e.amount ≤ 0) :
    Transaction.Validate t =
      some "entry amount must be positive (absolute value)" := by
  unfold Transaction.Validate
  have hne : t.entries.isEmpty = false := by
    obtain ⟨e, he, _⟩ := hz
    cases hent : t.entries with
    | nil =>
      rw [hent] at he
      cases he
    | cons a l => rfl
  rw [if_neg (by rw [hne]; exact Bool.false_ne_true),
    partitionEntries_error_of_zero hvalid hz]

/-- **C10.**  When the split rule makes the allocator assign exactly zero to
some target (e.g. a PERCENT 0 item), the inflow service builds a
VIRTUAL-layer debit entry of amount zero, transaction self-validation
rejects it with the strictly-positive-amount error, and `recordInflow`
returns that error — the transaction is never handed to the repository, so
nothing is persisted and no balance changes. -/
theorem zero_allocation_inflow_rejected
    (env : InflowEnv) (txID : Uid) (input : RecordInflowInput)
    (sourceBucket : Bucket) (rule : SplitRule) (alloc : AllocMap)
    (firstItem : SplitRuleItem) (firstTarget : Bucket) (parentID : Uid)
    (ha : 0 < input.amount)
    (hsrc : env.buckets input.sourceBucketID = some sourceBucket)
    (hsrct : sourceBucket.bucketType = .income)
    (hext : input.isExternal = true)
    (hrule : env.splitRule input.sourceBucketID = some rule)
    (halloc : CalculateAllocation input.amount rule.items = .ok alloc)
    (hzero : ∃ k, (k, (0 : Money)) ∈ alloc)
    (hfirst : rule.items.head? = some firstItem)
    (hft : env.buckets firstItem.targetBucketID = some firstTarget)
    (hftv : firstTarget.bucketType = .virtual)
    (hfp : firstTarget.parentPhysicalBucketID = some parentID)
    (htargets : validateTargets env.buckets parentID (keysOf alloc) = none) :
    RecordInflow env txID input =
      .error "entry amount must be positive (absolute value)" := by
  unfold RecordInflow
  rw [if_neg (not_le.mpr ha), hsrc]
  dsimp only
  rw [if_neg (by rw [hsrct]; intro hc; exact hc rfl), if_pos hext]
  unfold recordExternalInflow
  rw [hrule]
  dsimp only
  rw [halloc]
  dsimp only
  rw [hfirst]
  dsimp only
  rw [hft]
  dsimp only
  rw [if_neg (by rw [hftv]; intro hc; exact hc rfl), hfp]
  dsimp only
  rw [htargets]
  dsimp only
  rw [validate_error_of_zero_entry
    (by
      intro e he
      rcases List.mem_cons.mp he with rfl | he'
      · exact ⟨Or.inl rfl, Or.inl rfl⟩
      rcases List.mem_cons.mp he' with rfl | he''
      · exact ⟨Or.inl rfl, Or.inr rfl⟩
      rcases List.mem_append.mp he'' with he3 | he3
      · obtain ⟨p, _, rfl⟩ := List.mem_map.mp he3
        exact ⟨Or.inr rfl, Or.inl rfl⟩
      · rcases List.mem_singleton.mp he3 with rfl
        exact ⟨Or.inr rfl, Or.inr rfl⟩)
    (by
      obtain ⟨k, hk⟩ := hzero
      refine ⟨⟨k, 0, "DEBIT", "VIRTUAL"⟩, ?_, le_refl 0⟩
      exact List.mem_cons_of_mem _ (List.mem_cons_of_mem _
        (List.mem_append.mpr (Or.inl (List.mem_map.mpr ⟨(k, 0), hk, rfl⟩)))))]

/-- Witness for C10: the PERCENT-0 rule of `zeroInflowEnv` allocates 0 to
FreeCash (bucket 22) on an inflow of 100 and the service rejects the
posting. -/
theorem zero_allocation_inflow_rejected_witness :
    RecordInflow zeroInflowEnv 55 ⟨100, "Salary", 21, true⟩ =
      .error "entry amount must be positive (absolute value)" :=
  zero_allocation_inflow_rejected zeroInflowEnv 55 ⟨100, "Salary", 21, true⟩
    ⟨21, "Employer", .income, none, 0⟩
    ⟨21, [⟨22, .percent, 0, 1⟩, ⟨23, .remainder, 0, 2⟩]⟩
    [(22, 0), (23, 100)] ⟨22, .percent, 0, 1⟩ ⟨22, "FreeCash", .virtual, some 20, 0⟩ 20
    (by norm_num) (by norm_num +decide [zeroInflowEnv]) rfl rfl
    (by norm_num +decide [zeroInflowEnv])
    (by norm_num +decide [CalculateAllocation, sortByPriority, insertByPriority,
      fixedStep, percentStep, findRemainderItem, setEntry, sumValues,
      List.find?, List.foldl])
    ⟨22, by norm_num⟩ rfl
    (by norm_num +decide [zeroInflowEnv]) rfl rfl
    (by norm_num +decide [validateTargets, zeroInflowEnv, keysOf])

/-! ## Claim about transfer-task emission (C6) -/

lemma innerLoop_tasks_append (txID f : Uid) (R : List Uid) :
    ∀ (a : Money) (fl : AllocMap) (ts : List TransferTask),
      ∃ suf, (innerLoop txID f R a fl ts).2 = ts ++ suf := by
  induction R with
  | nil =>
    intro a fl ts
    exact ⟨[], by simp [innerLoop]⟩
  | cons r rest ih =>
    intro a fl ts
    rw [innerLoop]
    by_cases hmin : 0 < min a ((getEntry fl r).getD 0)
    · rw [if_pos hmin]
      by_cases hbr : a - min a ((getEntry fl r).getD 0) ≤ 0
      · rw [if_pos hbr]
        exact ⟨[⟨txID, none, f, r, min a ((getEntry fl r).getD 0), false⟩], rfl⟩
      · rw [if_neg hbr]
        obtain ⟨suf, hsuf⟩ := ih (a - min a ((getEntry fl r).getD 0))
          (setEntry fl r ((getEntry fl r).getD 0 - min a ((getEntry fl r).getD 0)))
          (ts ++ [⟨txID, none, f, r, min a ((getEntry fl r).getD 0), false⟩])
        exact ⟨_, by rw [hsuf, List.append_assoc]⟩
    · rw [if_neg hmin]
      exact ih a fl ts

lemma outerLoop_tasks_append (txID : Uid) (R : List Uid) (S : List Uid) :
    ∀ (fl : AllocMap) (ts : List TransferTask),
      ∃ suf, (outerLoop txID R S fl ts).2 = ts ++ suf := by
  induction S with
  | nil =>
    intro fl ts
    exact ⟨[], by simp [outerLoop]⟩
  | cons s rest ih =>
    intro fl ts
    rw [outerLoop]
    obtain ⟨suf1, hsuf1⟩ := innerLoop_tasks_append txID s R
      |(getEntry fl s).getD 0| fl ts
    obtain ⟨suf2, hsuf2⟩ := ih
      (innerLoop txID s R |(getEntry fl s).getD 0| fl ts).1
      (innerLoop txID s R |(getEntry fl s).getD 0| fl ts).2
    rw [hsuf2, hsuf1, List.append_assoc]
    exact ⟨_, rfl⟩

lemma outerLoop_nil_receivers (txID : Uid) (S : List Uid) :
    ∀ (fl : AllocMap) (ts : List TransferTask),
      outerLoop txID [] S fl ts = (fl, ts) := by
  induction S with
  | nil =>
    intro fl ts
    rfl
  | cons s rest ih =>
    intro fl ts
    rw [outerLoop]
    rw [show innerLoop txID s [] |(getEntry fl s).getD 0| fl ts = (fl, ts) from rfl]
    exact ih fl ts

lemma keysOf_setEntry_mem {m : AllocMap} {k : Uid} {v : Money}
    (h : m.any (fun p => decide (p.1 = k)) = true) :
    keysOf (setEntry m k v) = keysOf m := by
  unfold setEntry
  rw [if_pos h]
  unfold keysOf
  rw [List.map_map]
  apply List.map_congr_left
  intro p _
  by_cases hp : p.1 = k
  · simp [hp]
  · simp [hp]

lemma keysOf_setEntry_nodup {m : AllocMap} {k : Uid} {v : Money}
    (h : (keysOf m).Nodup) : (keysOf (setEntry m k v)).Nodup := by
  by_cases hc : m.any (fun p => decide (p.1 = k)) = true
  · rw [keysOf_setEntry_mem hc]
    exact h
  · unfold setEntry
    rw [if_neg hc]
    unfold keysOf
    rw [List.map_append]
    refine List.Nodup.append h (by simp) ?_
    intro j hj hj'
    simp only [List.map_cons, List.map_nil, List.mem_singleton] at hj'
    subst hj'
    rw [Bool.not_eq_true] at hc
    have := List.any_eq_false.mp hc
    obtain ⟨p, hp, hpe⟩ := List.mem_map.mp hj
    exact absurd (by simpa using this p hp) (by simp [hpe])

lemma foldl_flowStep_error (store : BucketStore) (es : List TransactionEntry)
    (e : String) : es.foldl (flowStep store) (.error e) = .error e := by
  induction es with
  | nil => rfl
  | cons x xs ih => simpa [flowStep] using ih

lemma flows_fold_nodup (store : BucketStore) (es : List TransactionEntry) :
    ∀ (m : AllocMap) (fl : AllocMap), (keysOf m).Nodup →
      es.foldl (flowStep store) (.ok m) = .ok fl → (keysOf fl).Nodup := by
  induction es with
  | nil =>
    intro m fl hm h
    simp only [List.foldl_nil] at h
    injection h with h'
    rw [← h']
    exact hm
  | cons x xs ih =>
    intro m fl hm h
    cases hfs : flowStep store (.ok m) x with
    | error e =>
      rw [List.foldl_cons, hfs, foldl_flowStep_error] at h
      cases h
    | ok m2 =>
      rw [List.foldl_cons, hfs] at h
      have hm2 : (keysOf m2).Nodup := by
        unfold flowStep at hfs
        dsimp only at hfs
        cases ha : anchorOf store x.bucketID with
        | error e =>
          rw [ha] at hfs
          cases hfs
        | ok oanchor =>
          rw [ha] at hfs
          cases oanchor with
          | none =>
            injection hfs with h2
            rw [← h2]
            exact hm
          | some pid =>
            dsimp only at hfs
            by_cases h1 : x.entryType = "DEBIT"
            · rw [if_pos h1] at hfs
              injection hfs with h2
              rw [← h2]
              exact keysOf_setEntry_nodup hm
            · rw [if_neg h1] at hfs
              by_cases hc : x.entryType = "CREDIT"
              · rw [if_pos hc] at hfs
                injection hfs with h2
                rw [← h2]
                exact keysOf_setEntry_nodup hm
              · rw [if_neg hc] at hfs
                injection hfs with h2
                rw [← h2]
                exact hm
      exact ih m2 fl hm2 h

lemma computeFlows_keys_nodup {store : BucketStore}
    {es : List TransactionEntry} {fl : AllocMap}
    (h : computeFlows store es = .ok fl) : (keysOf fl).Nodup :=
  flows_fold_nodup store es [] fl (by simp [keysOf]) h

lemma getEntry_of_mem_nodup {m : AllocMap} {k : Uid} {v : Money}
    (hnd : (keysOf m).Nodup) (hm : (k, v) ∈ m) : getEntry m k = some v := by
  induction m with
  | nil => cases hm
  | cons p rest ih =>
    rw [keysOf, List.map_cons, List.nodup_cons] at hnd
    rcases List.mem_cons.mp hm with rfl | hm'
    · unfold getEntry
      rw [List.find?_cons_of_pos _ (by simp)]
      rfl
    · have hk : k ∈ keysOf rest :=
        List.mem_map.mpr ⟨(k, v), hm', rfl⟩
      have hpk : ¬ p.1 = k := fun hc => hnd.1 (hc ▸ hk)
      unfold getEntry
      rw [List.find?_cons_of_neg _ (by simp [hpk])]
      exact ih hnd.2 hm'

lemma innerLoop_result_ne_nil (txID f : Uid) (r : Uid) (R' : List Uid)
    (a : Money) (fl : AllocMap) (ts : List TransferTask)
    (ha : 0 < a) (hr : 0 < (getEntry fl r).getD 0) :
    (innerLoop txID f (r :: R') a fl ts).2 ≠ [] := by
  rw [innerLoop]
  dsimp only
  rw [if_pos (lt_min ha hr)]
  by_cases hbr : a - min a ((getEntry fl r).getD 0) ≤ 0
  · rw [if_pos hbr]
    simp
  · rw [if_neg hbr]
    obtain ⟨suf, hsuf⟩ := innerLoop_tasks_append txID f R'
      (a - min a ((getEntry fl r).getD 0))
      (setEntry fl r ((getEntry fl r).getD 0 - min a ((getEntry fl r).getD 0)))
      (ts ++ [⟨txID, none, f, r, min a ((getEntry fl r).getD 0), false⟩])
    rw [hsuf]
    simp

lemma outerLoop_result_ne_nil_of_ne_nil (txID : Uid) (R S : List Uid)
    (fl : AllocMap) (ts : List TransferTask) (h : ts ≠ []) :
    (outerLoop txID R S fl ts).2 ≠ [] := by
  obtain ⟨suf, hsuf⟩ := outerLoop_tasks_append txID R S fl ts
  rw [hsuf]
  intro hc
  exact h (List.append_eq_nil.mp hc).1

/-- **C6.**  For every posted transaction, `GenerateTasks` emits at least one
task iff the per-physical-anchor net flows of the VIRTUAL-layer entries
(PHYSICAL bucket → itself, VIRTUAL → its parent, INCOME / EXPENSE / SYSTEM
skipped; DEBIT +, CREDIT −) contain both a strictly positive and a strictly
negative anchor; in particular a transaction whose virtual entries resolve
to a single anchor, only to skipped bucket types, or whose anchors all net
to zero produces no task. -/
theorem transfer_task_emitted_iff (store : BucketStore) (tx : Transaction)
    (tasks : List TransferTask) (flows : AllocMap)
    (hgen : GenerateTasks store tx = .ok tasks)
    (hflows : computeFlows store
      (tx.entries.filter (fun e => decide (e.layer = "VIRTUAL"))) = .ok flows) :
    tasks ≠ [] ↔ ((∃ p ∈ flows, 0 < p.2) ∧ (∃ p ∈ flows, p.2 < 0)) := by
  unfold GenerateTasks at hgen
  by_cases hemp :
      (tx.entries.filter (fun e => decide (e.layer = "VIRTUAL"))).isEmpty = true
  · rw [if_pos hemp] at hgen
    injection hgen with h'
    have hfe : flows = [] := by
      rw [List.isEmpty_iff.mp hemp] at hflows
      injection hflows with h2
      exact h2.symm
    subst hfe
    rw [← h']
    simp
  · rw [if_neg hemp, hflows] at hgen
    dsimp only at hgen
    injection hgen with h'
    subst h'
    have hnd := computeFlows_keys_nodup hflows
    constructor
    · intro hne
      by_contra hcon
      rw [not_and_or] at hcon
      rcases hcon with hcon | hcon
      · have hrec : flows.filter (fun p => decide (0 < p.2)) = [] := by
          rw [List.filter_eq_nil_iff]
          intro p hp
          simp only [decide_eq_true_eq]
          exact fun hc => hcon ⟨p, hp, hc⟩
        rw [hrec] at hne
        exact hne (by rw [List.map_nil, outerLoop_nil_receivers])
      · have hsend : flows.filter (fun p => decide (p.2 < 0)) = [] := by
          rw [List.filter_eq_nil_iff]
          intro p hp
          simp only [decide_eq_true_eq]
          exact fun hc => hcon ⟨p, hp, hc⟩
        rw [hsend] at hne
        exact hne rfl
    · rintro ⟨⟨p, hp, hpp⟩, ⟨q, hq, hqq⟩⟩
      cases hfr : flows.filter (fun p => decide (0 < p.2)) with
      | nil =>
        have hmem : p ∈ flows.filter (fun p => decide (0 < p.2)) :=
          List.mem_filter.mpr ⟨hp, by simpa using hpp⟩
        rw [hfr] at hmem
        cases hmem
      | cons p0 prest =>
        cases hfs : flows.filter (fun p => decide (p.2 < 0)) with
        | nil =>
          have hmem : q ∈ flows.filter (fun p => decide (p.2 < 0)) :=
            List.mem_filter.mpr ⟨hq, by simpa using hqq⟩
          rw [hfs] at hmem
          cases hmem
        | cons q0 qrest =>
          rw [List.map_cons, List.map_cons]
          have hp0 : p0 ∈ flows ∧ 0 < p0.2 := by
            have := List.mem_filter.mp (hfr ▸ List.mem_cons_self p0 prest)
            exact ⟨this.1, by simpa using this.2⟩
          have hq0 : q0 ∈ flows ∧ q0.2 < 0 := by
            have := List.mem_filter.mp (hfs ▸ List.mem_cons_self q0 qrest)
            exact ⟨this.1, by simpa using this.2⟩
          have hge_q : getEntry flows q0.1 = some q0.2 :=
            getEntry_of_mem_nodup hnd (by
              rw [show (q0.1, q0.2) = q0 from rfl]
              exact hq0.1)
          have hge_p : getEntry flows p0.1 = some p0.2 :=
            getEntry_of_mem_nodup hnd (by
              rw [show (p0.1, p0.2) = p0 from rfl]
              exact hp0.1)
          rw [outerLoop]
          apply outerLoop_result_ne_nil_of_ne_nil
          apply innerLoop_result_ne_nil
          · rw [hge_q]
            simpa using abs_pos.mpr (ne_of_lt hq0.2)
          · rw [hge_p]
            exact hp0.2

/-- Witness for C6: the inter-bank transfer (virtual CREDIT in Bank 1,
virtual DEBIT in Bank 2) produces flows Bank 2 ↦ +500, Bank 1 ↦ −500 and
exactly one task. -/
theorem transfer_task_emitted_iff_witness :
    (GenerateTasks twoBankStore
        ⟨70, "Transfer", true, false,
          [⟨33, 500, "CREDIT", "VIRTUAL"⟩, ⟨34, 500, "DEBIT", "VIRTUAL"⟩]⟩ =
      .ok [⟨70, none, 31, 32, 500, false⟩]) ∧
    (computeFlows twoBankStore
        [⟨33, 500, "CREDIT", "VIRTUAL"⟩, ⟨34, 500, "DEBIT", "VIRTUAL"⟩] =
      .ok [(31, -500), (32, 500)]) ∧
    (([⟨70, none, 31, 32, 500, false⟩] : List TransferTask) ≠ [] ↔
      ((∃ p ∈ [((31 : Uid), (-500 : Money)), (32, 500)], 0 < p.2) ∧
       (∃ p ∈ [((31 : Uid), (-500 : Money)), (32, 500)], p.2 < 0))) := by
  have h1 : GenerateTasks twoBankStore
      ⟨70, "Transfer", true, false,
        [⟨33, 500, "CREDIT", "VIRTUAL"⟩, ⟨34, 500, "DEBIT", "VIRTUAL"⟩]⟩ =
      .ok [⟨70, none, 31, 32, 500, false⟩] := by
    norm_num +decide [GenerateTasks, twoBankStore, computeFlows, flowStep,
      anchorOf, getEntry, setEntry, outerLoop, innerLoop, List.filter,
      List.foldl, List.find?]
  have h2 : computeFlows twoBankStore
      [⟨33, 500, "CREDIT", "VIRTUAL"⟩, ⟨34, 500, "DEBIT", "VIRTUAL"⟩] =
      .ok [(31, -500), (32, 500)] := by
    norm_num +decide [computeFlows, flowStep, anchorOf, getEntry, setEntry,
      twoBankStore, List.foldl, List.find?]
  refine ⟨h1, h2, ?_⟩
  exact transfer_task_emitted_iff twoBankStore
    ⟨70, "Transfer", true, false,
      [⟨33, 500, "CREDIT", "VIRTUAL"⟩, ⟨34, 500, "DEBIT", "VIRTUAL"⟩]⟩
    [⟨70, none, 31, 32, 500, false⟩] [(31, -500), (32, 500)] h1
    (by
      norm_num +decide [List.filter]
      exact h2)

end WealthFlow
